import Mathlib

/-!
Shallow embedding of the obsidian-plugin-writing-assistant repository
("Uncover" plugin). The repository has three source variants:

* `src/main.ts` — the primary variant: an awaited, error-catching note scan
  (`getNotesWithTag`) and a synthesizer (`generateContent`) that reads note
  contents with a `Promise.all`, sends one chat-completion request and maps
  provider failures to fixed sentinel strings.
* `src/unnamed/part_000` — identical logic with the credential taken from the
  plugin settings instead of environment variables.
* `src/unnamed/part_001` — a variant whose `getNotesWithTag` launches reads with
  `.then` callbacks without awaiting them and returns its accumulator
  synchronously.

The embedding models the vault collaborator as a list of notes together with a
set of paths whose `vault.read` rejects; a thrown/rejected promise is modelled
by `Except.error ()`.  The remote completion provider is a parameter mapping the
outbound prompt to either a transport failure or a response (a list of choices,
each an optional message content; `none` models a `null`/absent content field).
`generateContentT` additionally returns a `Trace` counting how many `vault.read`
invocations and provider calls the synthesizer performed.
-/

namespace Uncover

/-- A note in the vault: its path and its current textual content. -/
structure Note where
  path : String
  content : String
  deriving DecidableEq, Repr

/-- The file-store collaborator: the enumeration of notes (`vault.getFiles()`),
plus the set of paths whose `vault.read` rejects (I/O error, permissions). -/
structure Vault where
  files : List Note
  readFails : List String
  deriving DecidableEq, Repr

/-- JS `s.startsWith(pre)`: case-sensitive character-prefix test. -/
def strStartsWith (s pre : String) : Bool :=
  decide (pre.data <+: s.data)

/-- JS `s.includes(sub)`: literal substring containment, case-sensitive. -/
def strIncludes (s sub : String) : Bool :=
  decide (sub.data <:+: s.data)

/-- The characters of `p` before the last `'/'` (empty when there is none):
JS `p.substring(0, p.lastIndexOf('/'))`, where `lastIndexOf` returning `-1`
makes `substring` produce the empty string. -/
def folderChars (l : List Char) : List Char :=
  ((l.reverse.dropWhile (fun c => c ≠ '/')).drop 1).reverse

/-- The folder scope derived from the triggering note's path (main.ts line 32). -/
def folderOf (p : String) : String :=
  ⟨folderChars p.data⟩

/-- `this.app.vault.read(file)`: succeeds with the note's content unless the
path is one whose read rejects. -/
def vaultRead (v : Vault) (f : Note) : Except Unit String :=
  if v.readFails.contains f.path then .error () else .ok f.content

/-- `this.app.vault.getAbstractFileByPath(path)` restricted to notes: the first
enumerated file with the given path, or `none` (covering both a `null` return
and a non-`TFile` result, which main.ts lines 95–100 treat alike). -/
def getAbstractFileByPath (v : Vault) (p : String) : Option Note :=
  v.files.find? (fun f => f.path == p)

/-- Loop body of `getNotesWithTag` (main.ts lines 66–80): for each enumerated
file under the folder prefix, read it; a rejected read is caught and the file
skipped; matching paths are accumulated in enumeration order. -/
def getNotesWithTagLoop (v : Vault) (tag folderPath : String) : List Note → List String
  | [] => []
  | f :: fs =>
      if strStartsWith f.path folderPath then
        match vaultRead v f with
        | .error _ => getNotesWithTagLoop v tag folderPath fs
        | .ok content =>
            if strIncludes content tag then
              f.path :: getNotesWithTagLoop v tag folderPath fs
            else
              getNotesWithTagLoop v tag folderPath fs
      else
        getNotesWithTagLoop v tag folderPath fs

/-- `getNotesWithTag(tag, folderPath)` of main.ts lines 62–83. -/
def getNotesWithTag (v : Vault) (tag folderPath : String) : List String :=
  getNotesWithTagLoop v tag folderPath v.files

/-- Outcome of the chat-completion call: a thrown transport/provider error, or
a response carrying the choices' message contents (`none` = `null`/absent). -/
inductive ProviderResult where
  | failure : ProviderResult
  | response : List (Option String) → ProviderResult

/-- `response.choices[0]?.message?.content` followed by the falsy test of
main.ts lines 119–120: `none` when there is no first choice, its content is
absent/null, or it is the empty string. -/
def extractMessageContent (choices : List (Option String)) : Option String :=
  match choices.head? with
  | none => none
  | some none => none
  | some (some s) => if s = "" then none else some s

/-- Sentinel returned when the credential is unset (main.ts line 90). -/
def apiKeyMissingMsg : String :=
  "API Key is not set. Please configure it in the .env file."

/-- Sentinel returned when the completion call throws (main.ts line 127). -/
def providerErrorMsg : String :=
  "Error generating content. Please check the console for details."

/-- Sentinel returned on a contentless response (main.ts line 122). -/
def noContentMsg : String :=
  "Error generating content. No response content."

/-- One element of the `Promise.all` batch (main.ts lines 94–101): resolve the
path; a resolved note is read (counted as one read, and the read may reject);
an unresolved path contributes the empty-string placeholder without a read. -/
def readForSynthesis (v : Vault) (p : String) : Except Unit String × Nat :=
  match getAbstractFileByPath v p with
  | some f => (vaultRead v f, 1)
  | none => (.ok "", 0)

/-- `Promise.all` joining: all reads are launched; the batch result keeps input
order and rejects when any element rejected. -/
def collectExcept : List (Except Unit String) → Except Unit (List String)
  | [] => .ok []
  | .error e :: _ => .error e
  | .ok s :: rest =>
      match collectExcept rest with
      | .error e => .error e
      | .ok ss => .ok (s :: ss)

/-- The outbound prompt template of main.ts line 104. -/
def promptFor (notesContent : List String) : String :=
  "Uncover relationships between the following notes:\n" ++
    String.intercalate "\n" notesContent

/-- Instrumentation: how many `vault.read` invocations and how many provider
calls a `generateContent` run performed. -/
structure Trace where
  readCalls : Nat
  providerCalls : Nat
  deriving DecidableEq, Repr

/-- The `try` block of main.ts lines 112–128: one completion call; a thrown
provider failure is caught and mapped to `providerErrorMsg`; a structurally
contentless response maps to `noContentMsg`; otherwise the extracted answer
text is returned. -/
def completionStep (provider : String → ProviderResult) (prompt : String) :
    Except Unit String :=
  match provider prompt with
  | .failure => .ok providerErrorMsg
  | .response choices =>
      match extractMessageContent choices with
      | none => .ok noContentMsg
      | some s => .ok s

/-- `generateContent(notes)` of main.ts lines 88–129, instrumented with a
`Trace`.  The credential check precedes everything; the batched re-read is not
inside the `try`, so a rejected read propagates (`Except.error`); the
completion call and extraction are `completionStep`. -/
def generateContentT (apiKey : String) (v : Vault) (provider : String → ProviderResult)
    (notes : List String) : Except Unit String × Trace :=
  if apiKey = "" then
    (.ok apiKeyMissingMsg, ⟨0, 0⟩)
  else
    let reads := notes.map (readForSynthesis v)
    let readCount := (reads.map Prod.snd).sum
    match collectExcept (reads.map Prod.fst) with
    | .error e => (.error e, ⟨readCount, 0⟩)
    | .ok notesContent =>
        (completionStep provider (promptFor notesContent), ⟨readCount, 1⟩)

/-- The string (or propagated exception) `generateContent` hands its caller. -/
def generateContent (apiKey : String) (v : Vault) (provider : String → ProviderResult)
    (notes : List String) : Except Unit String :=
  (generateContentT apiKey v provider notes).fst

/-- Message inserted when the current file path is unavailable (main.ts line 28). -/
def noFilePathMsg : String :=
  "Could not determine the current file path."

/-- Message inserted when the scan found nothing (main.ts line 37). -/
def noRelatedNotesMsg : String :=
  "No related notes with the &uncover tag found."

/-- The command's `editorCallback` (main.ts lines 25–43): derive the folder
scope, locate notes tagged `&uncover`, and either insert the fixed guidance
message or the synthesized relationships under the fixed header.  The first
component is the text passed to `editor.replaceSelection` (or the propagated
exception); the `Trace` is the synthesizer's (zero when it was never called). -/
def editorCallback (apiKey : String) (v : Vault) (provider : String → ProviderResult)
    (currentFilePath : Option String) : Except Unit String × Trace :=
  match currentFilePath with
  | none => (.ok noFilePathMsg, ⟨0, 0⟩)
  | some path =>
      let folderPath := folderOf path
      let relatedNotes := getNotesWithTag v "&uncover" folderPath
      if relatedNotes.length = 0 then
        (.ok noRelatedNotesMsg, ⟨0, 0⟩)
      else
        match generateContentT apiKey v provider relatedNotes with
        | (.error e, tr) => (.error e, tr)
        | (.ok relationships, tr) =>
            (.ok ("\n## Relationships Uncovered:\n" ++ relationships), tr)

/-- The content the synthesis pass contributes for a path when its read does
not reject: the resolved note's content, or the empty-string placeholder. -/
def synthContent (v : Vault) (p : String) : String :=
  match getAbstractFileByPath v p with
  | some f => f.content
  | none => ""

/-- The read launched for `p` during synthesis does not reject (vacuously true
for an unresolved path, which launches no read). -/
def synthReadOk (v : Vault) (p : String) : Bool :=
  match getAbstractFileByPath v p with
  | some f => !(v.readFails.contains f.path)
  | none => true

/-!
The `src/unnamed/part_001` variant.  Its `getNotesWithTag` (lines 56–68) is
synchronous: the `forEach` body calls `vault.read(file).then(...)` without
awaiting, so every push into `notes` happens in a promise callback that runs
only after the function has already returned.  The embedding makes the deferred
work explicit: the synchronous phase only schedules reads, and the accumulator
visible at return time is the `notes` field of the resulting state.
-/

/-- State of the part_001 scan at the synchronous return point: the `notes`
accumulator as the caller observes it, and the files whose read-then-push
callbacks were scheduled (in enumeration order) but have not yet run. -/
structure ScanState where
  notes : List String
  scheduled : List Note
  deriving DecidableEq, Repr

/-- Synchronous phase of part_001 `getNotesWithTag` (lines 58–66): each file
under the folder prefix gets a read scheduled; no push into `notes` happens
during the loop itself. -/
def getNotesWithTagLoopV1 (folderPath : String) : List Note → ScanState → ScanState
  | [], st => st
  | f :: fs, st =>
      if strStartsWith f.path folderPath then
        getNotesWithTagLoopV1 folderPath fs { st with scheduled := st.scheduled ++ [f] }
      else
        getNotesWithTagLoopV1 folderPath fs st

/-- part_001 `getNotesWithTag(tag, folderPath)`: runs the synchronous loop and
returns the state at the `return notes` statement (line 67). -/
def getNotesWithTag_v1 (v : Vault) (tag folderPath : String) : ScanState :=
  let _ := tag
  getNotesWithTagLoopV1 folderPath v.files { notes := [], scheduled := [] }

/-- The pushes that the scheduled callbacks of part_001 eventually perform,
after `getNotesWithTag_v1` has returned: each scheduled file whose read
resolves and whose content contains the tag appends its path. -/
def drainScheduled (v : Vault) (tag : String) (st : ScanState) : List String :=
  st.notes ++
    (st.scheduled.filter
      (fun f => !(v.readFails.contains f.path) && strIncludes f.content tag)).map Note.path

/-- One element of part_001's `Promise.all` batch (line 79):
`vault.read(getAbstractFileByPath(path))` with no `TFile` guard, so an
unresolved path makes the read call itself throw, uncaught. -/
def readForSynthesisV1 (v : Vault) (p : String) : Except Unit String :=
  match getAbstractFileByPath v p with
  | some f => vaultRead v f
  | none => .error ()

/-- part_001 `generateContent(notes)` (lines 73–101).  The `try` wraps only the
completion call and the extraction `response.choices[0].message.content`
(line 96): an empty choices list raises a `TypeError` inside the `try` and is
mapped to the generic sentinel, while a `null` content field is returned as-is
(modelled by `Except.ok none`). -/
def generateContentV1 (apiKey : String) (v : Vault) (provider : String → ProviderResult)
    (notes : List String) : Except Unit (Option String) :=
  if apiKey = "" then
    .ok (some "API Key is not set. Please configure it in the .env file.")
  else
    match collectExcept (notes.map (readForSynthesisV1 v)) with
    | .error e => .error e
    | .ok notesContent =>
        match provider (promptFor notesContent) with
        | .failure => .ok (some providerErrorMsg)
        | .response choices =>
            match choices.head? with
            | none => .ok (some providerErrorMsg)
            | some c => .ok c

/-- Message inserted by part_001 when the scan found nothing (line 31). -/
def noRelatedNotesMsgV1 : String :=
  "No related notes with the #uncover tag found."

/-- part_001 `editorCallback` (lines 25–37): no null-check on the current file
path, tag `#uncover`, and the locator's synchronously returned accumulator is
what gets length-tested.  A `null` returned by `generateContent` would be
coerced to the text `null` by the template literal at line 36. -/
def editorCallbackV1 (apiKey : String) (v : Vault) (provider : String → ProviderResult)
    (path : String) : Except Unit String :=
  let folderPath := folderOf path
  let relatedNotes := (getNotesWithTag_v1 v "#uncover" folderPath).notes
  if relatedNotes.length = 0 then
    .ok noRelatedNotesMsgV1
  else
    match generateContentV1 apiKey v provider relatedNotes with
    | .error e => .error e
    | .ok (some s) => .ok ("\n## Relationships Uncovered:\n" ++ s)
    | .ok none => .ok ("\n## Relationships Uncovered:\n" ++ "null")

/- Smoke tests against the end-to-end scenario of the specification. -/

example :
    getNotesWithTag
      ⟨[⟨"/proj/note1.md", "aa &uncover bb"⟩, ⟨"/proj/note2.md", "&uncover"⟩,
        ⟨"/other/note3.md", "&uncover"⟩, ⟨"/proj/current.md", "plain"⟩], []⟩
      "&uncover" (folderOf "/proj/current.md") =
      ["/proj/note1.md", "/proj/note2.md"] := by decide

example :
    generateContent "sk-test"
      ⟨[⟨"/proj/note1.md", "aa"⟩], []⟩
      (fun _ => .response [some "A relates to B via X"])
      ["/proj/note1.md"] = .ok "A relates to B via X" := rfl

/-!
Helper lemmas shared by the claim theorems.
-/

/-- The folder characters are a prefix of the original path's characters. -/
theorem folderChars_isPre (l : List Char) : folderChars l <+: l := by
  have h1 : (l.reverse.dropWhile (fun c => c ≠ '/')).drop 1 <:+ l.reverse :=
    (List.drop_suffix 1 _).trans (List.dropWhile_suffix _)
  have h2 := List.reverse_prefix.mpr h1
  rwa [List.reverse_reverse] at h2

/-- Every path starts with its own derived folder scope. -/
theorem strStartsWith_folderOf (p : String) : strStartsWith p (folderOf p) = true := by
  rw [strStartsWith, folderOf]
  exact decide_eq_true (folderChars_isPre p.data)

/-- The scan loop computes exactly the in-order filter of the enumerated files:
path under the prefix, read succeeded, content contains the tag. -/
theorem getNotesWithTagLoop_eq (v : Vault) (tag folderPath : String) (fs : List Note) :
    getNotesWithTagLoop v tag folderPath fs =
      (fs.filter (fun f => strStartsWith f.path folderPath &&
        !(v.readFails.contains f.path) && strIncludes f.content tag)).map Note.path := by
  induction fs with
  | nil => rfl
  | cons f fs ih =>
      by_cases h1 : strStartsWith f.path folderPath = true
      · by_cases h2 : f.path ∈ v.readFails
        · have hv : vaultRead v f = .error () := by simp [vaultRead, h2]
          simp [getNotesWithTagLoop, h1, h2, hv, ih, List.filter_cons]
        · have hv : vaultRead v f = .ok f.content := by simp [vaultRead, h2]
          by_cases h3 : strIncludes f.content tag = true
          · simp [getNotesWithTagLoop, h1, h2, h3, hv, ih, List.filter_cons]
          · simp [getNotesWithTagLoop, h1, h2, h3, hv, ih, List.filter_cons]
      · simp [getNotesWithTagLoop, h1, ih, List.filter_cons]

/-- An unreadable file's read result, projected. -/
theorem readForSynthesis_fst (v : Vault) (p : String) (h : synthReadOk v p = true) :
    (readForSynthesis v p).fst = .ok (synthContent v p) := by
  rw [synthReadOk] at h
  cases hp : getAbstractFileByPath v p with
  | none => simp [readForSynthesis, synthContent, hp]
  | some f =>
      rw [hp] at h
      have h2 : ¬ f.path ∈ v.readFails := by simpa using h
      simp [readForSynthesis, synthContent, hp, vaultRead, h2]

/-- When every launched read succeeds, the `Promise.all` join resolves with the
contents in input order. -/
theorem collectExcept_ok (v : Vault) (notes : List String)
    (h : ∀ p ∈ notes, synthReadOk v p = true) :
    collectExcept ((notes.map (readForSynthesis v)).map Prod.fst) =
      .ok (notes.map (synthContent v)) := by
  induction notes with
  | nil => rfl
  | cons p ps ih =>
      have hp := readForSynthesis_fst v p (h p (List.mem_cons_self p ps))
      have ihp := ih (fun q hq => h q (List.mem_cons_of_mem p hq))
      simp only [List.map_cons, hp, collectExcept, ihp]

/-- When every launched read succeeds, `generateContent` is the provider's
answer at the prompt built from the in-order contents, with the two response
sentinels. -/
theorem generateContent_reads_ok (apiKey : String) (v : Vault)
    (provider : String → ProviderResult) (notes : List String)
    (hk : ¬ apiKey = "") (h : ∀ p ∈ notes, synthReadOk v p = true) :
    generateContent apiKey v provider notes =
      completionStep provider (promptFor (notes.map (synthContent v))) := by
  unfold generateContent generateContentT
  simp only [if_neg hk]
  rw [collectExcept_ok v notes h]

/-- The assembled prompt is never the empty string. -/
theorem promptFor_ne_empty (l : List String) : ¬ promptFor l = "" := by
  intro h
  have h2 := congrArg String.length h
  rw [promptFor, String.length_append] at h2
  have h3 : (0:Nat) < "Uncover relationships between the following notes:\n".length := by decide
  have h0 : ("" : String).length = 0 := rfl
  rw [h0] at h2
  omega

/-- With an echo provider, `generateContent` returns the assembled prompt:
the lead-in followed by the contents in input order. -/
theorem generateContent_echo (apiKey : String) (v : Vault) (notes : List String)
    (hk : ¬ apiKey = "") (h : ∀ p ∈ notes, synthReadOk v p = true) :
    generateContent apiKey v (fun s => .response [some s]) notes =
      .ok (promptFor (notes.map (synthContent v))) := by
  rw [generateContent_reads_ok apiKey v _ notes hk h]
  have hne := promptFor_ne_empty (notes.map (synthContent v))
  simp [completionStep, extractMessageContent, hne]

/-- The inserted relationships text never coincides with the "no related
notes" guidance message. -/
theorem header_append_ne (s : String) :
    ¬ ("\n## Relationships Uncovered:\n" ++ s) = noRelatedNotesMsg := by
  intro h
  have h2 := congrArg String.data h
  rw [String.data_append] at h2
  have e1 : "\n## Relationships Uncovered:\n".data =
      '\n' :: "## Relationships Uncovered:\n".data := rfl
  have e2 : noRelatedNotesMsg.data =
      'N' :: "o related notes with the &uncover tag found.".data := rfl
  rw [e1, e2, List.cons_append] at h2
  exact absurd (List.head_eq_of_cons_eq h2) (by decide)

/-- The part_001 synchronous scan loop never touches the `notes` accumulator. -/
theorem getNotesWithTagLoopV1_notes (folderPath : String) (fs : List Note) (st : ScanState) :
    (getNotesWithTagLoopV1 folderPath fs st).notes = st.notes := by
  induction fs generalizing st with
  | nil => rfl
  | cons f fs ih =>
      by_cases h1 : strStartsWith f.path folderPath = true <;>
        simp [getNotesWithTagLoopV1, h1, ih]

/-- Dropping an unreadable file from the enumeration does not change the scan:
the read's rejection is caught, the file skipped, and the loop continues. -/
theorem getNotesWithTagLoop_skip (v : Vault) (tag folderPath : String) (f : Note)
    (hf : vaultRead v f = .error ()) (fs1 fs2 : List Note) :
    getNotesWithTagLoop v tag folderPath (fs1 ++ f :: fs2) =
      getNotesWithTagLoop v tag folderPath (fs1 ++ fs2) := by
  induction fs1 with
  | nil =>
      simp only [List.nil_append]
      by_cases h1 : strStartsWith f.path folderPath = true
      · simp [getNotesWithTagLoop, h1, hf]
      · simp [getNotesWithTagLoop, h1]
  | cons g gs ih =>
      simp only [List.cons_append, getNotesWithTagLoop]
      cases hv : vaultRead v g <;> by_cases h1 : strStartsWith g.path folderPath = true <;>
        simp [h1, hv, ih]

/-!
Claim theorems.
-/

/-- C1: `getNotesWithTag(T, F)` returns exactly the paths of enumerated notes
whose path starts with `F` (case-sensitive character prefix) and whose
successfully read content contains `T` as a literal substring, in the store's
enumeration order; in particular every returned path starts with `F`. -/
theorem uncover_locate_characterization (v : Vault) (tag folderPath : String) :
    getNotesWithTag v tag folderPath =
      (v.files.filter (fun f => strStartsWith f.path folderPath &&
        !(v.readFails.contains f.path) && strIncludes f.content tag)).map Note.path ∧
    ∀ p ∈ getNotesWithTag v tag folderPath, strStartsWith p folderPath = true := by
  refine ⟨getNotesWithTagLoop_eq v tag folderPath v.files, ?_⟩
  intro p hp
  rw [getNotesWithTag, getNotesWithTagLoop_eq] at hp
  obtain ⟨f, hf, rfl⟩ := List.mem_map.mp hp
  have h2 := (List.mem_filter.mp hf).2
  simp only [Bool.and_eq_true] at h2
  exact h2.1.1

/-- C2 (counterexample): with a configured key, a single resolved path whose
`vault.read` rejects makes `generateContent` propagate the rejection to its
caller instead of returning a string — the batched re-read is outside the
`try`/`catch`. -/
theorem uncover_generateContent_throws_cex :
    generateContent "sk-test" ⟨[⟨"a.md", "x"⟩], ["a.md"]⟩ (fun _ => .failure) ["a.md"] =
      .error () := rfl

/-- C2 (amended): provided no launched content read rejects during synthesis,
`generateContent` always returns a string, and that string is the
missing-credential sentinel, the generic provider-failure sentinel, the
empty-response sentinel, or the provider's extracted answer text; in
particular a provider failure maps to the fixed generic sentinel. -/
theorem uncover_generateContent_total (apiKey : String) (v : Vault)
    (provider : String → ProviderResult) (notes : List String)
    (h : ∀ p ∈ notes, synthReadOk v p = true) :
    ∃ s, generateContent apiKey v provider notes = .ok s ∧
      (s = apiKeyMissingMsg ∨ s = providerErrorMsg ∨ s = noContentMsg ∨
        ∃ prompt choices, provider prompt = .response choices ∧
          extractMessageContent choices = some s) := by
  by_cases hk : apiKey = ""
  · refine ⟨apiKeyMissingMsg, ?_, Or.inl rfl⟩
    simp [generateContent, generateContentT, hk]
  · rw [generateContent_reads_ok apiKey v provider notes hk h]
    unfold completionStep
    cases hpr : provider (promptFor (notes.map (synthContent v))) with
    | failure => exact ⟨providerErrorMsg, rfl, Or.inr (Or.inl rfl)⟩
    | response choices =>
        cases hec : extractMessageContent choices with
        | none =>
            refine ⟨noContentMsg, ?_, Or.inr (Or.inr (Or.inl rfl))⟩
            simp [hec]
        | some s =>
            refine ⟨s, ?_, Or.inr (Or.inr (Or.inr ⟨_, choices, hpr, hec⟩))⟩
            simp [hec]

/-- Witness for C2 (amended) at a concrete store, key and failing provider. -/
theorem uncover_generateContent_total_witness :
    ∃ s, generateContent "sk-test" ⟨[⟨"a.md", "x"⟩], []⟩ (fun _ => .failure) ["a.md"] =
        .ok s ∧
      (s = apiKeyMissingMsg ∨ s = providerErrorMsg ∨ s = noContentMsg ∨
        ∃ prompt choices, (fun _ : String => ProviderResult.failure) prompt =
            .response choices ∧ extractMessageContent choices = some s) :=
  uncover_generateContent_total "sk-test" ⟨[⟨"a.md", "x"⟩], []⟩ (fun _ => .failure)
    ["a.md"] (by decide)

/-- C3: with an empty credential, `generateContent` returns the fixed
configuration-missing sentinel, performs zero reads and zero provider calls,
for every store, provider and input path list. -/
theorem uncover_missing_key_no_calls (v : Vault) (provider : String → ProviderResult)
    (notes : List String) :
    generateContentT "" v provider notes = (.ok apiKeyMissingMsg, ⟨0, 0⟩) := rfl

/-- C4: with the reads succeeding, the string handed to the provider is the
fixed lead-in followed by the notes' contents joined with newlines in exactly
the input list's order; witnessed by an echo provider, whose answer
`generateContent` then returns verbatim. -/
theorem uncover_prompt_order (apiKey : String) (v : Vault) (notes : List String)
    (hk : ¬ apiKey = "") (h : ∀ p ∈ notes, synthReadOk v p = true) :
    generateContent apiKey v (fun s => .response [some s]) notes =
      .ok (promptFor (notes.map (synthContent v))) :=
  generateContent_echo apiKey v notes hk h

/-- Witness for C4 at a concrete store and path list. -/
theorem uncover_prompt_order_witness :
    generateContent "sk-test" ⟨[⟨"a.md", "x"⟩, ⟨"b.md", "y"⟩], []⟩
        (fun s => .response [some s]) ["a.md", "b.md"] =
      .ok (promptFor (["a.md", "b.md"].map
        (synthContent ⟨[⟨"a.md", "x"⟩, ⟨"b.md", "y"⟩], []⟩))) :=
  uncover_prompt_order "sk-test" ⟨[⟨"a.md", "x"⟩, ⟨"b.md", "y"⟩], []⟩
    ["a.md", "b.md"] (by decide) (by decide)

/-- C5: a structurally valid but contentless response — no first choice, a
`null` content, or an empty content string — makes `generateContent` return
the fixed "no response content" sentinel. -/
theorem uncover_contentless_response_sentinel (apiKey : String) (v : Vault)
    (notes : List String) (choices : List (Option String))
    (hk : ¬ apiKey = "") (h : ∀ p ∈ notes, synthReadOk v p = true)
    (hc : choices.head? = none ∨ choices.head? = some none ∨
      choices.head? = some (some "")) :
    generateContent apiKey v (fun _ => .response choices) notes = .ok noContentMsg := by
  rw [generateContent_reads_ok apiKey v _ notes hk h]
  rcases hc with h1 | h1 | h1 <;> simp [completionStep, extractMessageContent, h1]

/-- Witness for C5: an empty choices list at a concrete store. -/
theorem uncover_contentless_response_witness :
    generateContent "sk-test" ⟨[], []⟩ (fun _ => .response []) [] = .ok noContentMsg :=
  uncover_contentless_response_sentinel "sk-test" ⟨[], []⟩ [] [] (by decide)
    (by simp) (Or.inl rfl)

/-- C6: a path that no longer resolves contributes the empty-string
placeholder at its slot of the combined block, and the batch still completes
(returns `.ok`) over all remaining paths, witnessed by an echo provider. -/
theorem uncover_unresolved_path_placeholder (apiKey : String) (v : Vault) (p : String)
    (l1 l2 : List String) (hk : ¬ apiKey = "")
    (hp : getAbstractFileByPath v p = none)
    (h1 : ∀ q ∈ l1, synthReadOk v q = true) (h2 : ∀ q ∈ l2, synthReadOk v q = true) :
    generateContent apiKey v (fun s => .response [some s]) (l1 ++ p :: l2) =
      .ok (promptFor (l1.map (synthContent v) ++ "" :: l2.map (synthContent v))) := by
  have hall : ∀ q ∈ l1 ++ p :: l2, synthReadOk v q = true := by
    intro q hq
    rcases List.mem_append.mp hq with hq1 | hq2
    · exact h1 q hq1
    · rcases List.mem_cons.mp hq2 with rfl | hq3
      · simp [synthReadOk, hp]
      · exact h2 q hq3
  have := generateContent_echo apiKey v (l1 ++ p :: l2) hk hall
  rwa [List.map_append, List.map_cons, show synthContent v p = "" by
    simp [synthContent, hp]] at this

/-- Witness for C6: an unresolved path between two readable ones. -/
theorem uncover_unresolved_path_witness :
    generateContent "sk-test" ⟨[⟨"a.md", "x"⟩, ⟨"b.md", "y"⟩], []⟩
        (fun s => .response [some s]) (["a.md"] ++ "ghost.md" :: ["b.md"]) =
      .ok (promptFor (["a.md"].map (synthContent ⟨[⟨"a.md", "x"⟩, ⟨"b.md", "y"⟩], []⟩) ++
        "" :: ["b.md"].map (synthContent ⟨[⟨"a.md", "x"⟩, ⟨"b.md", "y"⟩], []⟩))) :=
  uncover_unresolved_path_placeholder "sk-test" ⟨[⟨"a.md", "x"⟩, ⟨"b.md", "y"⟩], []⟩
    "ghost.md" ["a.md"] ["b.md"] (by decide) (by decide) (by decide) (by decide)

/-- C7: an unreadable note is skipped — the scan of an enumeration containing
it equals the scan with it removed, so the whole discovery never fails and
every other note is still processed; totality (no raised error) is expressed
by `getNotesWithTag` returning a plain list. -/
theorem uncover_unreadable_note_skipped (v : Vault) (tag folderPath : String)
    (fs1 fs2 : List Note) (f : Note)
    (hfiles : v.files = fs1 ++ f :: fs2) (hf : vaultRead v f = .error ()) :
    getNotesWithTag v tag folderPath = getNotesWithTagLoop v tag folderPath (fs1 ++ fs2) := by
  rw [getNotesWithTag, hfiles]
  exact getNotesWithTagLoop_skip v tag folderPath f hf fs1 fs2

/-- Witness for C7: a vault whose middle note is unreadable scans like the
vault without it. -/
theorem uncover_unreadable_note_skipped_witness :
    getNotesWithTag ⟨[⟨"p/a.md", "&uncover"⟩, ⟨"p/bad.md", "&uncover"⟩,
        ⟨"p/c.md", "&uncover"⟩], ["p/bad.md"]⟩ "&uncover" "p" =
      getNotesWithTagLoop ⟨[⟨"p/a.md", "&uncover"⟩, ⟨"p/bad.md", "&uncover"⟩,
        ⟨"p/c.md", "&uncover"⟩], ["p/bad.md"]⟩ "&uncover" "p"
        ([⟨"p/a.md", "&uncover"⟩] ++ [⟨"p/c.md", "&uncover"⟩]) :=
  uncover_unreadable_note_skipped _ "&uncover" "p" [⟨"p/a.md", "&uncover"⟩]
    [⟨"p/c.md", "&uncover"⟩] ⟨"p/bad.md", "&uncover"⟩ rfl rfl

/-- C8: the command inserts the fixed "no related notes" message — and skips
the synthesizer and provider entirely — exactly when the locator returned the
empty sequence (which it does as a value, never as an error). -/
theorem uncover_no_matches_message_iff (apiKey : String) (v : Vault)
    (provider : String → ProviderResult) (path : String) :
    getNotesWithTag v "&uncover" (folderOf path) = [] ↔
      editorCallback apiKey v provider (some path) = (.ok noRelatedNotesMsg, ⟨0, 0⟩) := by
  constructor
  · intro h
    simp [editorCallback, h]
  · intro h
    cases hrn : getNotesWithTag v "&uncover" (folderOf path) with
    | nil => rfl
    | cons q qs =>
        exfalso
        rw [editorCallback] at h
        simp only [hrn, List.length_cons] at h
        rw [if_neg (by omega)] at h
        cases hg : generateContentT apiKey v provider (q :: qs) with
        | mk res tr =>
            rw [hg] at h
            cases res with
            | error e => simp at h
            | ok s =>
                simp only [Prod.mk.injEq] at h
                exact header_append_ne s (Except.ok.inj h.1)

/-- C9: in the part_001 variant the accumulator observed at the locator's
synchronous return is always empty — every push happens in a deferred read
callback — so the command always inserts the "no related notes" message. -/
theorem uncover_v1_scan_empty (v : Vault) (tag folderPath apiKey : String)
    (provider : String → ProviderResult) (path : String) :
    (getNotesWithTag_v1 v tag folderPath).notes = [] ∧
      editorCallbackV1 apiKey v provider path = .ok noRelatedNotesMsgV1 := by
  constructor
  · exact getNotesWithTagLoopV1_notes folderPath v.files ⟨[], []⟩
  · rw [editorCallbackV1]
    simp [getNotesWithTag_v1, getNotesWithTagLoopV1_notes]

/-- C10: the triggering note is not excluded — if it sits in the store, its
read succeeds and its content contains the tag, its own path is in the
locator's result (its path starts with its own derived folder scope), and it
resolves again at synthesis time. -/
theorem uncover_current_note_included (v : Vault) (note : Note)
    (hmem : note ∈ v.files)
    (hread : v.readFails.contains note.path = false)
    (htag : strIncludes note.content "&uncover" = true) :
    note.path ∈ getNotesWithTag v "&uncover" (folderOf note.path) ∧
      ∃ f, getAbstractFileByPath v note.path = some f := by
  constructor
  · rw [getNotesWithTag, getNotesWithTagLoop_eq]
    refine List.mem_map.mpr ⟨note, List.mem_filter.mpr ⟨hmem, ?_⟩, rfl⟩
    rw [strStartsWith_folderOf, hread, htag]
    rfl
  · have h2 : (v.files.find? (fun f => f.path == note.path)).isSome :=
      List.find?_isSome.mpr ⟨note, hmem, by simp⟩
    exact Option.isSome_iff_exists.mp h2

/-- Witness for C10 at a concrete store and triggering note. -/
theorem uncover_current_note_included_witness :
    "/proj/current.md" ∈ getNotesWithTag ⟨[⟨"/proj/current.md", "x &uncover"⟩], []⟩
        "&uncover" (folderOf "/proj/current.md") ∧
      ∃ f, getAbstractFileByPath ⟨[⟨"/proj/current.md", "x &uncover"⟩], []⟩
        "/proj/current.md" = some f :=
  uncover_current_note_included ⟨[⟨"/proj/current.md", "x &uncover"⟩], []⟩
    ⟨"/proj/current.md", "x &uncover"⟩ (by decide) (by decide) (by decide)

end Uncover
